import Mathlib

/-!
Verification of the FLTK-2.0 styled box-drawing primitives (`src/UpBox.cxx`)
and the `StatusBarGroup` layout container (`StatusBarGroup.h` and its
implementation), as a shallow embedding: a draw call is modelled as the list
of backend primitives it emits, and the mutable widget state is passed
explicitly through each operation.
-/

/-- An integer pixel rectangle, as `fltk::Rectangle`: position and size. -/
structure Rect where
  x : Int
  y : Int
  w : Int
  h : Int
deriving DecidableEq

/-- The right edge `Rectangle::r()`. -/
def Rect.right (r : Rect) : Int := r.x + r.w

/-- The bottom edge `Rectangle::b()`. -/
def Rect.bottom (r : Rect) : Int := r.y + r.h

/-- `Rectangle::empty()`: width or height is non-positive. -/
def Rect.isEmpty (r : Rect) : Bool := decide (r.w ≤ 0) || decide (r.h ≤ 0)

/-- `Rectangle::move_x(d)`: move the left edge, keeping the right edge. -/
def Rect.move_x (r : Rect) (d : Int) : Rect := { r with x := r.x + d, w := r.w - d }

/-- `Rectangle::move_r(d)`: move the right edge. -/
def Rect.move_r (r : Rect) (d : Int) : Rect := { r with w := r.w + d }

/-- `Rectangle::move_y(d)`: move the top edge, keeping the bottom edge. -/
def Rect.move_y (r : Rect) (d : Int) : Rect := { r with y := r.y + d, h := r.h - d }

/-- `Rectangle::move_b(d)`: move the bottom edge. -/
def Rect.move_b (r : Rect) (d : Int) : Rect := { r with h := r.h + d }

/-- The flag bits consumed by box drawing, one Boolean per bit of
`fltk::Flags`. -/
structure Flags where
  focused : Bool
  pushed : Bool
  value : Bool
  highlight : Bool
  selected : Bool
  inactive : Bool
  invisible : Bool
deriving DecidableEq

/-- Backend colors are numeric indices (`fltk::Color`). -/
abbrev Color := Int

/-- `fltk::GRAY00`, the color-map index of black in the gray ramp: pattern
letters map linearly onto the ramp, `A` to `GRAY00` up to `X` at white. -/
def GRAY00 : Color := 32

/-- `fltk::DOT` line-style selector (`line_style(0)` restores solid). -/
def DOT : Int := 2

/-- The slice of `fltk::Style` read by box drawing.  `boxcolors` is the
resolved (background, foreground) pair of the style for a flag set; its
computation lives outside this subsystem, so it stays an abstract function. -/
structure Style where
  boxcolors : Flags → Color × Color
  draw_boxes_inactive : Bool
  textcolor : Color

/-- One backend drawing primitive, in the order `_draw` emits them. -/
inductive Prim where
  | setcolor (c : Color)
  | fillrect (r : Rect)
  | drawline (x1 y1 x2 y2 : Int)
  | strokerect (r : Rect)
  | linestyle (s : Int)
deriving DecidableEq

/-- `fltk::BoxInfo`: content offset (dx, dy), total border size (dw, dh),
and the tri-state opacity flag. -/
structure BoxInfo where
  dx : Int
  dy : Int
  dw : Int
  dh : Int
  fills_rectangle : Int
deriving DecidableEq

/-- `FlatBox::_draw`: nothing when INVISIBLE or empty, otherwise one fill of
the whole rectangle in the resolved background color. -/
def FlatBox.draw (r : Rect) (style : Style) (flags : Flags) : List Prim :=
  if flags.invisible then []
  else if r.isEmpty then []
  else [Prim.setcolor (style.boxcolors flags).1, Prim.fillrect r]

/-- `FlatBox::boxinfo()`: the static `{0,0,0,0,3}` descriptor. -/
def FlatBox.boxinfo : BoxInfo := ⟨0, 0, 0, 0, 3⟩

/-- Shade of a pattern character: `setcolor(*s + (GRAY00 - 'A'))`. -/
def shade (c : Char) : Color := (c.toNat : Int) + (GRAY00 - 65)

/-- One step of the copy loop of `fl_to_inactive`: `'M' + (c - 'A')/3`,
computed as C does in signed ints with truncating division (the result fits
a byte for every byte input, so the char conversion never wraps). -/
def inactiveShade (c : Char) : Char :=
  Char.ofNat (Int.toNat ((Char.toNat 'M' : Int) + Int.tdiv ((c.toNat : Int) - (Char.toNat 'A' : Int)) 3))

/-- The `while (*s)` copy loop of `fl_to_inactive`. -/
def flToInactiveLoop : List Char → List Char
  | [] => []
  | c :: rest => inactiveShade c :: flToInactiveLoop rest

/-- `fl_to_inactive`: remap the shades of a bezel pattern toward mid-gray,
copying a leading mode character `2` through unchanged. -/
def fl_to_inactive (s : List Char) : List Char :=
  if s.head? = some '2' then '2' :: flToInactiveLoop s.tail
  else flToInactiveLoop s

/-- The interior fill at the end of `FrameBox::_draw`, skipped when the
INVISIBLE flag is set. -/
def interiorFill (style : Style) (flags : Flags) (r : Rect) : List Prim :=
  if flags.invisible then []
  else [Prim.setcolor (style.boxcolors flags).1, Prim.fillrect r]

mutual

/-- Bottom/right half of the `FrameBox::_draw` spiral loop (the entry point
when there is no leading `2`).  Each edge reads one pattern character, draws
the edge, shrinks the rectangle one pixel on that side, and returns early
when the shrunken dimension is exhausted; after the right edge, an empty
remainder breaks out to the interior fill.  A read past the end of the
pattern sees the terminating NUL of the C string (going further than that is
undefined in C and modelled as more NULs). -/
def spiralBR (style : Style) (flags : Flags) : List Char → Rect → List Prim
  | [], r =>
    let p1 := [Prim.setcolor (shade (Char.ofNat 0)),
               Prim.drawline r.x (r.bottom - 1) (r.right - 1) (r.bottom - 1)]
    let r1 := r.move_b (-1)
    if r1.h ≤ 0 then p1 else
    let p2 := [Prim.setcolor (shade (Char.ofNat 0)),
               Prim.drawline (r1.right - 1) r1.y (r1.right - 1) (r1.bottom - 1)]
    let r2 := r1.move_r (-1)
    if r2.w ≤ 0 then p1 ++ p2 else
    p1 ++ p2 ++ interiorFill style flags r2
  | [c1], r =>
    let p1 := [Prim.setcolor (shade c1),
               Prim.drawline r.x (r.bottom - 1) (r.right - 1) (r.bottom - 1)]
    let r1 := r.move_b (-1)
    if r1.h ≤ 0 then p1 else
    let p2 := [Prim.setcolor (shade (Char.ofNat 0)),
               Prim.drawline (r1.right - 1) r1.y (r1.right - 1) (r1.bottom - 1)]
    let r2 := r1.move_r (-1)
    if r2.w ≤ 0 then p1 ++ p2 else
    p1 ++ p2 ++ interiorFill style flags r2
  | c1 :: c2 :: rest, r =>
    let p1 := [Prim.setcolor (shade c1),
               Prim.drawline r.x (r.bottom - 1) (r.right - 1) (r.bottom - 1)]
    let r1 := r.move_b (-1)
    if r1.h ≤ 0 then p1 else
    let p2 := [Prim.setcolor (shade c2),
               Prim.drawline (r1.right - 1) r1.y (r1.right - 1) (r1.bottom - 1)]
    let r2 := r1.move_r (-1)
    if r2.w ≤ 0 then p1 ++ p2 else
    match rest with
    | [] => p1 ++ p2 ++ interiorFill style flags r2
    | _ :: _ => p1 ++ p2 ++ spiralTL style flags rest r2

/-- Top/left half of the spiral loop (the `HACK` entry point reached when
the pattern has a leading `2`). -/
def spiralTL (style : Style) (flags : Flags) : List Char → Rect → List Prim
  | [], r =>
    let p1 := [Prim.setcolor (shade (Char.ofNat 0)),
               Prim.drawline r.x r.y (r.right - 1) r.y]
    let r1 := r.move_y 1
    if r1.h ≤ 0 then p1 else
    let p2 := [Prim.setcolor (shade (Char.ofNat 0)),
               Prim.drawline r1.x r1.y r1.x (r1.bottom - 1)]
    let r2 := r1.move_x 1
    if r2.w ≤ 0 then p1 ++ p2 else
    p1 ++ p2 ++ interiorFill style flags r2
  | [c1], r =>
    let p1 := [Prim.setcolor (shade c1),
               Prim.drawline r.x r.y (r.right - 1) r.y]
    let r1 := r.move_y 1
    if r1.h ≤ 0 then p1 else
    let p2 := [Prim.setcolor (shade (Char.ofNat 0)),
               Prim.drawline r1.x r1.y r1.x (r1.bottom - 1)]
    let r2 := r1.move_x 1
    if r2.w ≤ 0 then p1 ++ p2 else
    p1 ++ p2 ++ interiorFill style flags r2
  | c1 :: c2 :: rest, r =>
    let p1 := [Prim.setcolor (shade c1),
               Prim.drawline r.x r.y (r.right - 1) r.y]
    let r1 := r.move_y 1
    if r1.h ≤ 0 then p1 else
    let p2 := [Prim.setcolor (shade c2),
               Prim.drawline r1.x r1.y r1.x (r1.bottom - 1)]
    let r2 := r1.move_x 1
    if r2.w ≤ 0 then p1 ++ p2 else
    match rest with
    | [] => p1 ++ p2 ++ interiorFill style flags r2
    | _ :: _ => p1 ++ p2 ++ spiralBR style flags rest r2

end

/-- Pattern selection at the top of `FrameBox::_draw`: the VALUE flag
substitutes the pattern of the down box; INACTIVE together with the style
option remaps the shades through `fl_to_inactive`. -/
def selectPattern (data down : List Char) (style : Style) (flags : Flags) : List Char :=
  let s := if flags.value then down else data
  if flags.inactive && style.draw_boxes_inactive then fl_to_inactive s else s

/-- `FrameBox::_draw` after pattern selection: a leading `2` is consumed and
makes the spiral start at the top edge, otherwise it starts at the bottom
edge. -/
def FrameBox.drawPattern (s : List Char) (r : Rect) (style : Style) (flags : Flags) : List Prim :=
  if s.head? = some '2' then spiralTL style flags s.tail r
  else spiralBR style flags s r

/-- `FrameBox::_draw`: nothing on an empty rectangle, otherwise run the
spiral interpreter on the selected pattern. -/
def FrameBox.draw (data down : List Char) (r : Rect) (style : Style) (flags : Flags) : List Prim :=
  if r.isEmpty then []
  else FrameBox.drawPattern (selectPattern data down style flags) r style flags

/-- Width insetting of `DottedFrame::_draw`: one pixel off each side when
wider than 4, one pixel off the right when wider than 3, otherwise give up. -/
def dottedInsetW (r : Rect) : Option Rect :=
  if r.w > 4 then some ((r.move_x 1).move_r (-1))
  else if r.w > 3 then some (r.move_r (-1))
  else none

/-- Height insetting of `DottedFrame::_draw`, mirroring the width logic. -/
def dottedInsetH (r : Rect) : Option Rect :=
  if r.h > 4 then some ((r.move_y 1).move_b (-1))
  else if r.h > 3 then some (r.move_b (-1))
  else none

/-- `DottedFrame::_draw`, portable branch: a dotted outline one pixel inset,
only when FOCUSED (the X11/WIN32 branches realize the same logical outline
with stipple patterns). -/
def DottedFrame.draw (r1 : Rect) (style : Style) (flags : Flags) : List Prim :=
  if !flags.focused then []
  else
    match dottedInsetW r1 with
    | none => []
    | some ra =>
      match dottedInsetH ra with
      | none => []
      | some r =>
        [Prim.setcolor (style.boxcolors flags).2, Prim.linestyle DOT,
         Prim.strokerect r, Prim.linestyle 0]

/-- The closed set of box variants of `UpBox.cxx`.  A `frameBox` carries its
pattern and, optionally, the pattern of its down companion (`none` models the
self-reference `down(d ? d : this)` of the constructor). -/
inductive Box where
  | noBox
  | flatBox
  | frameBox (data : List Char) (down : Option (List Char))
  | borderFrame
  | highlightBox (down : Box)
  | dottedFrame
deriving DecidableEq

/-- `Box::draw` dispatching to the `_draw` of each variant. -/
def Box.draw : Box → Rect → Style → Flags → List Prim
  | .noBox, _, _, _ => []
  | .flatBox, r, style, flags => FlatBox.draw r style flags
  | .frameBox data down, r, style, flags =>
      FrameBox.draw data (down.getD data) r style flags
  | .borderFrame, r, style, _ =>
      [Prim.setcolor style.textcolor, Prim.strokerect r]
  | .highlightBox down, r, style, flags =>
      if flags.highlight || flags.selected || flags.value || flags.pushed
      then down.draw r style flags
      else FlatBox.draw r style flags
  | .dottedFrame, r, style, flags => DottedFrame.draw r style flags

/-- `Box::boxinfo` for each variant.  The `frameBox` insets are the ones the
`FrameBox` constructor computes once from the pattern length (truncating
integer divisions).  `noBox` and `dottedFrame` do not override `boxinfo`;
the base-class default (outside this corpus) is, per the spec, all-zero
insets, not filling the rectangle. -/
def Box.boxinfo : Box → BoxInfo
  | .noBox => ⟨0, 0, 0, 0, 0⟩
  | .flatBox => FlatBox.boxinfo
  | .frameBox data _ =>
      let i : Nat := data.length / 2
      ⟨((i / 2 : Nat) : Int), ((i / 2 : Nat) : Int), ((i : Nat) : Int), ((i : Nat) : Int), 3⟩
  | .borderFrame => ⟨1, 1, 2, 2, 0⟩
  | .highlightBox down => down.boxinfo
  | .dottedFrame => ⟨0, 0, 0, 0, 0⟩

/-- The `box_dx` inset accessor. -/
def boxDx (b : Box) : Int := b.boxinfo.dx

/-- The `box_dw` inset accessor. -/
def boxDw (b : Box) : Int := b.boxinfo.dw

/-- The `box_dh` inset accessor. -/
def boxDh (b : Box) : Int := b.boxinfo.dh

/-- `fltk::DOWN_BOX`. -/
def DOWN_BOX : Box := .frameBox "WWHHPPAA".data none

/-- `fltk::UP_BOX`. -/
def UP_BOX : Box := .frameBox "AAWWHHTT".data (some "WWHHPPAA".data)

/-- `fltk::THIN_DOWN_BOX`. -/
def THIN_DOWN_BOX : Box := .frameBox "WWHH".data none

/-- `fltk::THIN_UP_BOX`. -/
def THIN_UP_BOX : Box := .frameBox "HHWW".data (some "WWHH".data)

/-- `fltk::FLAT_BOX`. -/
def FLAT_BOX : Box := .flatBox

/-- The `BORDER_WIDTH` constant of the `StatusBarGroup` implementation. -/
def BORDER_WIDTH : Int := 2

/-- The three label-slot positions `SBAR_LEFT`, `SBAR_CENTER`, `SBAR_RIGHT`. -/
inductive Position where
  | sbarLeft
  | sbarCenter
  | sbarRight
deriving DecidableEq

/-- One allocated label slot (an `InvisibleBox` child): its rectangle, its
label text and its box style.  Its alignment is the same constant at every
creation and is not modelled. -/
structure LabelBox where
  rect : Rect
  label : String
  box : Box
deriving DecidableEq

/-- The `StatusBarGroup` state: its own rectangle and box, the three slot
text fields `tf_[3]` and the three slot box styles `b_[3]`. -/
structure SBG where
  rect : Rect
  boxK : Box
  tfL : Option LabelBox
  tfC : Option LabelBox
  tfR : Option LabelBox
  bL : Box
  bC : Box
  bR : Box
deriving DecidableEq

/-- The slot text field `tf_[pos]`. -/
def SBG.tf (st : SBG) : Position → Option LabelBox
  | .sbarLeft => st.tfL
  | .sbarCenter => st.tfC
  | .sbarRight => st.tfR

/-- The slot box style `b_[pos]`. -/
def SBG.bAt (st : SBG) : Position → Box
  | .sbarLeft => st.bL
  | .sbarCenter => st.bC
  | .sbarRight => st.bR

/-- Writing the slot text field `tf_[pos]`. -/
def SBG.setTf (st : SBG) : Position → Option LabelBox → SBG
  | .sbarLeft, v => { st with tfL := v }
  | .sbarCenter, v => { st with tfC := v }
  | .sbarRight, v => { st with tfR := v }

/-- `StatusBarGroup::update_box`: measure the label of an allocated slot
(`measure` abstracts the external `Widget::measure_label`), pad its width by
`(box_dw(b_[pos])+1)*2`, set its height from the container height minus the
vertical insets, and set its x from the position.  The centering division of
C truncates toward zero, hence `Int.tdiv`.  On an unallocated slot this is a
no-op (`if (!b) return`). -/
def updateBox (measure : String → Int × Int) (st : SBG) (pos : Position) : SBG :=
  match st.tf pos with
  | none => st
  | some lb =>
    let mX := (measure lb.label).1 + (boxDw (st.bAt pos) + 1) * 2
    let h' := st.rect.h - (boxDh st.boxK + BORDER_WIDTH) * 2
    let x' := match pos with
      | .sbarLeft => boxDx st.boxK
      | .sbarCenter => Int.tdiv (st.rect.right - mX) 2
      | .sbarRight => st.rect.right - mX - boxDw st.boxK - BORDER_WIDTH
    st.setTf pos (some { lb with rect := ⟨x', lb.rect.y, mX, h'⟩ })

/-- `StatusBarGroup::set(t, pos)`: empty text destroys the slot box if it
exists; non-empty text creates the box if absent (with the initial geometry
of the constructor call), replaces its label, and recomputes its geometry
via `update_box`.  The empty string models the null/empty C check
`!t || !*t`.  `redraw()` touches no modelled state. -/
def SBG.set (measure : String → Int × Int) (st : SBG) (t : String) (pos : Position) : SBG :=
  if t = "" then
    match st.tf pos with
    | some _ => st.setTf pos none
    | none => st
  else
    let st1 := match st.tf pos with
      | none =>
        st.setTf pos (some
          { rect := ⟨boxDx st.boxK, boxDh st.boxK + BORDER_WIDTH, 10, 10⟩
            label := ""
            box := st.bAt pos })
      | some _ => st
    let st2 := match st1.tf pos with
      | some lb => st1.setTf pos (some { lb with label := t })
      | none => st1
    updateBox measure st2 pos

/-- Minimal model of the external `vsprintf` for the decimal conversions the
formatted setter is used with: each `%d` is replaced by the decimal
rendering of the argument. -/
def sprintfDGo : List Char → Int → List Char
  | [], _ => []
  | '%' :: 'd' :: rest, n => (toString n).data ++ sprintfDGo rest n
  | c :: rest, n => c :: sprintfDGo rest n

/-- String-level wrapper of `sprintfDGo`. -/
def sprintfD (fmt : String) (n : Int) : String := ⟨sprintfDGo fmt.data n⟩

/-- `StatusBarGroup::set(pos, format, ...)`: format into a buffer, then
delegate to the plain `set`.  (The C buffer is a fixed 512 bytes; the spec
flags that as a latent overflow.) -/
def SBG.setFmt (measure : String → Int × Int) (st : SBG) (pos : Position)
    (fmt : String) (n : Int) : SBG :=
  st.set measure (sprintfD fmt n) pos

/-- The slice of the parent widget read by `resize_from_parent`: its size
and its box (for the content insets). -/
structure ParentInfo where
  w : Int
  h : Int
  box : Box

/-- `StatusBarGroup::resize_from_parent`.  Without a parent it returns at
once.  With a parent it anchors the own rectangle to the bottom of the
parent content area, shortens every other child of the parent whose bottom
edge overlaps the new top edge (the loop skips `this`; `others` holds the
rectangles of those children and is returned updated), and finally re-runs
`update_box` on the three slots.  `init_sizes()` on group children changes
no geometry modelled here. -/
def resizeFromParent (measure : String → Int × Int) (parent : Option ParentInfo)
    (others : List Rect) (st : SBG) : SBG × List Rect :=
  match parent with
  | none => (st, others)
  | some p =>
    let x' := boxDx p.box
    let w' := p.w - boxDw p.box
    let y' := p.h - boxDh p.box - st.rect.h
    let st1 : SBG := { st with rect := ⟨x', y', w', st.rect.h⟩ }
    let others' := others.map fun c =>
      let delta := c.bottom - y'
      if delta > 0 then
        ⟨c.x, c.y, c.w, if c.h - delta > 0 then c.h - delta else 0⟩
      else c
    (updateBox measure
      (updateBox measure (updateBox measure st1 .sbarLeft) .sbarCenter) .sbarRight,
     others')

/-- The four spiral edges, in the cyclic drawing order of the claim. -/
inductive Edge where
  | bottom
  | right
  | top
  | left
deriving DecidableEq

/-- Successor in the cyclic order bottom, right, top, left. -/
def Edge.next : Edge → Edge
  | .bottom => .right
  | .right => .top
  | .top => .left
  | .left => .bottom

/-- Specification side: the primitives drawing one edge of the current
rectangle in the shade of one pattern character. -/
def Edge.prims : Edge → Char → Rect → List Prim
  | .bottom, c, r =>
      [Prim.setcolor (shade c),
       Prim.drawline r.x (r.bottom - 1) (r.right - 1) (r.bottom - 1)]
  | .right, c, r =>
      [Prim.setcolor (shade c),
       Prim.drawline (r.right - 1) r.y (r.right - 1) (r.bottom - 1)]
  | .top, c, r =>
      [Prim.setcolor (shade c),
       Prim.drawline r.x r.y (r.right - 1) r.y]
  | .left, c, r =>
      [Prim.setcolor (shade c),
       Prim.drawline r.x r.y r.x (r.bottom - 1)]

/-- Specification side: shrink the rectangle one pixel on the side of the
drawn edge. -/
def Edge.shrink : Edge → Rect → Rect
  | .bottom, r => r.move_b (-1)
  | .right, r => r.move_r (-1)
  | .top, r => r.move_y 1
  | .left, r => r.move_x 1

/-- Specification-side spiral (written from the words of claim C2): consume
one edge per pattern character in cyclic order, shrink after each edge,
return immediately once the width or the height becomes ≤ 0, and fill the
remaining interior (unless INVISIBLE) once the pattern is exhausted. -/
def spiralSpec (style : Style) (flags : Flags) : List Char → Edge → Rect → List Prim
  | [], _, r => interiorFill style flags r
  | c :: cs, e, r =>
    let r' := e.shrink r
    if r'.w ≤ 0 ∨ r'.h ≤ 0 then e.prims c r
    else e.prims c r ++ spiralSpec style flags cs e.next r'

/-- Specification side of `FrameBox::_draw` for claim C2: an empty rectangle
draws nothing; a leading `2` of the selected pattern is consumed as a mode
switch selecting the top-starting cyclic order; the other patterns start at
the bottom edge. -/
def FrameBox.drawSpec (data down : List Char) (r : Rect) (style : Style) (flags : Flags) : List Prim :=
  if r.isEmpty then []
  else
    let s := selectPattern data down style flags
    if s.head? = some '2' then spiralSpec style flags s.tail .top r
    else spiralSpec style flags s .bottom r

/-- The selected pattern with a leading `2` mode character stripped. -/
def patternBody (s : List Char) : List Char :=
  if s.head? = some '2' then s.tail else s

/-- A concrete style used to instantiate theorems on concrete inputs. -/
def testStyle : Style :=
  { boxcolors := fun _ => (7, 15), draw_boxes_inactive := true, textcolor := 3 }

/-- The all-clear flag set. -/
def noFlags : Flags :=
  { focused := false, pushed := false, value := false, highlight := false,
    selected := false, inactive := false, invisible := false }

/-- A concrete label-measuring function used to instantiate theorems. -/
def testMeasure : String → Int × Int := fun s => (6 * (s.length : Int), 10)

/-- A measuring function reporting zero extents, for instantiations where no
slot is allocated. -/
def zeroMeasure : String → Int × Int := fun _ => (0, 0)

/-- The flag set with only INACTIVE. -/
def inactiveFlags : Flags := { noFlags with inactive := true }

/-- The state of a default-constructed `StatusBarGroup(24)` after `init()`:
rectangle (0,0,0,24), own box THIN_DOWN_BOX, no slot allocated, FLAT_BOX
slot styles. -/
def exampleBar : SBG :=
  { rect := ⟨0, 0, 0, 24⟩, boxK := THIN_DOWN_BOX,
    tfL := none, tfC := none, tfR := none,
    bL := FLAT_BOX, bC := FLAT_BOX, bR := FLAT_BOX }

example : FrameBox.draw "AAWWHHTT".data "WWHHPPAA".data ⟨0, 0, 10, 10⟩ testStyle noFlags =
    FrameBox.drawSpec "AAWWHHTT".data "WWHHPPAA".data ⟨0, 0, 10, 10⟩ testStyle noFlags := by
  decide

example : FrameBox.draw "HHWWWWHH".data "WWHH".data ⟨0, 0, 3, 3⟩ testStyle noFlags =
    FrameBox.drawSpec "HHWWWWHH".data "WWHH".data ⟨0, 0, 3, 3⟩ testStyle noFlags := by
  decide

example :
    let s := "2HHWWWWHH".data
    FrameBox.drawPattern s ⟨0, 0, 9, 9⟩ testStyle noFlags =
      spiralSpec testStyle noFlags s.tail .top ⟨0, 0, 9, 9⟩ := by
  decide

theorem spiralSpec_nil (style : Style) (flags : Flags) (e : Edge) (r : Rect) :
    spiralSpec style flags [] e r = interiorFill style flags r := rfl

theorem spiralSpec_cons (style : Style) (flags : Flags) (c : Char) (cs : List Char)
    (e : Edge) (r : Rect) :
    spiralSpec style flags (c :: cs) e r =
      if (e.shrink r).w ≤ 0 ∨ (e.shrink r).h ≤ 0 then e.prims c r
      else e.prims c r ++ spiralSpec style flags cs e.next (e.shrink r) := rfl

/-- Main equivalence: on a pattern of even length (at least two characters),
each half of the code spiral agrees with the specification interpreter
started at the corresponding edge, as long as the rectangle is alive. -/
theorem spiral_eq : ∀ (c1 c2 : Char) (rest : List Char) (style : Style) (flags : Flags)
    (x y w h : Int), rest.length % 2 = 0 → 0 < w → 0 < h →
    spiralBR style flags (c1 :: c2 :: rest) ⟨x, y, w, h⟩ =
        spiralSpec style flags (c1 :: c2 :: rest) .bottom ⟨x, y, w, h⟩ ∧
      spiralTL style flags (c1 :: c2 :: rest) ⟨x, y, w, h⟩ =
        spiralSpec style flags (c1 :: c2 :: rest) .top ⟨x, y, w, h⟩
  | c1, c2, [], style, flags, x, y, w, h => by
    intro _ hw hh
    constructor
    · rw [spiralSpec_cons, spiralSpec_cons, spiralSpec_nil]
      simp only [spiralBR, Edge.next, Edge.shrink, Edge.prims, Rect.move_b, Rect.move_r,
        Rect.right, Rect.bottom]
      split_ifs <;> first | rfl | omega
    · rw [spiralSpec_cons, spiralSpec_cons, spiralSpec_nil]
      simp only [spiralTL, Edge.next, Edge.shrink, Edge.prims, Rect.move_y, Rect.move_x,
        Rect.right, Rect.bottom]
      split_ifs <;> first | rfl | omega
  | c1, c2, [c3], style, flags, x, y, w, h => by
    intro hpar _ _
    simp at hpar
  | c1, c2, c3 :: c4 :: rest2, style, flags, x, y, w, h => by
    intro hpar hw hh
    have hpar2 : rest2.length % 2 = 0 := by
      simp [List.length_cons] at hpar
      omega
    constructor
    · rw [spiralSpec_cons, spiralSpec_cons]
      simp only [spiralBR, Edge.next, Edge.shrink, Edge.prims, Rect.move_b, Rect.move_r,
        Rect.right, Rect.bottom]
      split_ifs <;> first
        | rfl
        | omega
        | (rw [(spiral_eq c3 c4 rest2 style flags x y (w + -1) (h + -1) hpar2
            (by omega) (by omega)).2]
           simp [List.append_assoc])
    · rw [spiralSpec_cons, spiralSpec_cons]
      simp only [spiralTL, Edge.next, Edge.shrink, Edge.prims, Rect.move_y, Rect.move_x,
        Rect.right, Rect.bottom]
      split_ifs <;> first
        | rfl
        | omega
        | (rw [(spiral_eq c3 c4 rest2 style flags (x + 1) (y + 1) (w - 1) (h - 1) hpar2
            (by omega) (by omega)).1]
           simp [List.append_assoc])

/-- C2: for every rectangle, style and flag set whose selected pattern (the
down-box pattern is substituted first when the VALUE flag is set, and a
leading 2 is consumed as a mode switch, not as a color) has a nonempty body
of even length, `FrameBox::_draw` equals the specification interpreter: one
edge per pattern character in the cyclic order bottom, right, top, left (or
top, left, bottom, right under a leading 2), the working rectangle shrinking
one pixel on the drawn side after each edge, drawing returning immediately
as soon as the shrunken width or height becomes ≤ 0, and, once the pattern
is exhausted, the remaining interior being filled with the resolved
background color exactly when the INVISIBLE flag is clear. -/
theorem frameBox_draw_refines_spec (data down : List Char) (r : Rect) (style : Style)
    (flags : Flags)
    (hne : patternBody (selectPattern data down style flags) ≠ [])
    (hev : (patternBody (selectPattern data down style flags)).length % 2 = 0) :
    FrameBox.draw data down r style flags = FrameBox.drawSpec data down r style flags := by
  obtain ⟨x, y, w, h⟩ := r
  generalize hsel : selectPattern data down style flags = s at hne hev
  simp only [FrameBox.draw, FrameBox.drawSpec, FrameBox.drawPattern, hsel]
  by_cases hemp : Rect.isEmpty ⟨x, y, w, h⟩ = true
  · rw [if_pos hemp, if_pos hemp]
  · rw [if_neg hemp, if_neg hemp]
    have hw : 0 < w := by
      simp [Rect.isEmpty] at hemp
      omega
    have hh : 0 < h := by
      simp [Rect.isEmpty] at hemp
      omega
    by_cases h2 : s.head? = some '2'
    · obtain ⟨t, rfl⟩ : ∃ t, s = '2' :: t := by
        cases s with
        | nil => simp at h2
        | cons a t =>
          simp at h2
          exact ⟨t, by rw [h2]⟩
      simp only [patternBody, List.head?_cons, List.tail_cons, if_pos] at hne hev
      rw [if_pos h2, if_pos h2]
      simp only [List.tail_cons]
      match t, hne, hev with
      | c1 :: c2 :: rest, _, hev =>
        have hr : rest.length % 2 = 0 := by
          simp [List.length_cons] at hev
          omega
        exact (spiral_eq c1 c2 rest style flags x y w h hr hw hh).2
      | [c1], _, hev =>
        simp at hev
      | [], hne, _ =>
        simp at hne
    · rw [if_neg h2, if_neg h2]
      have hbody : patternBody s = s := by
        simp [patternBody, h2]
      rw [hbody] at hne hev
      match s, hne, hev with
      | c1 :: c2 :: rest, _, hev =>
        have hr : rest.length % 2 = 0 := by
          simp [List.length_cons] at hev
          omega
        exact (spiral_eq c1 c2 rest style flags x y w h hr hw hh).1
      | [c1], _, hev =>
        simp at hev
      | [], hne, _ =>
        simp at hne

/-- Witness for C2: the standard up-box pattern on a 10 by 10 rectangle. -/
theorem frameBox_draw_refines_spec_witness :
    FrameBox.draw "AAWWHHTT".data "WWHHPPAA".data ⟨0, 0, 10, 10⟩ testStyle noFlags =
      FrameBox.drawSpec "AAWWHHTT".data "WWHHPPAA".data ⟨0, 0, 10, 10⟩ testStyle noFlags :=
  frameBox_draw_refines_spec _ _ _ _ _ (by decide) (by decide)

theorem flToInactiveLoop_map : ∀ u : List Char, flToInactiveLoop u = u.map inactiveShade
  | [] => rfl
  | c :: rest => by
    simp [flToInactiveLoop, flToInactiveLoop_map rest]

/-- C4: for every rectangle with positive width and height and every flag
set without INVISIBLE, `FlatBox::_draw` emits exactly one fill of the whole
rectangle in the background color resolved from the style; with INVISIBLE
set, or on an empty rectangle, it emits nothing; and `FlatBox::boxinfo()`
has all-zero insets with `fills_rectangle = 3`. -/
theorem flatBox_draw_exact (r : Rect) (style : Style) (flags : Flags) :
    (flags.invisible = false → r.isEmpty = false →
      FlatBox.draw r style flags =
        [Prim.setcolor (style.boxcolors flags).1, Prim.fillrect r])
    ∧ (flags.invisible = true ∨ r.isEmpty = true → FlatBox.draw r style flags = [])
    ∧ Box.boxinfo Box.flatBox = ⟨0, 0, 0, 0, 3⟩ := by
  refine ⟨?_, ?_, rfl⟩
  · intro h1 h2
    simp [FlatBox.draw, h1, h2]
  · intro h
    rcases h with h | h <;> simp [FlatBox.draw, h]

/-- Witness for C4: a 5 by 5 rectangle with no flags set, and an empty
rectangle. -/
theorem flatBox_draw_exact_witness :
    (FlatBox.draw ⟨0, 0, 5, 5⟩ testStyle noFlags =
      [Prim.setcolor (testStyle.boxcolors noFlags).1, Prim.fillrect ⟨0, 0, 5, 5⟩])
    ∧ FlatBox.draw ⟨0, 0, 0, 5⟩ testStyle noFlags = [] :=
  ⟨(flatBox_draw_exact ⟨0, 0, 5, 5⟩ testStyle noFlags).1 rfl (by decide),
   (flatBox_draw_exact ⟨0, 0, 0, 5⟩ testStyle noFlags).2.1 (Or.inr (by decide))⟩

/-- C5: `HighlightBox` delegation: when any of HIGHLIGHT, SELECTED, VALUE,
PUSHED is set, its draw emits exactly the primitives of the active sub-box
with the same arguments, otherwise exactly those of `FlatBox::_draw`, and
its `boxinfo` always equals the boxinfo of the active sub-box. -/
theorem highlightBox_delegation (down : Box) (r : Rect) (style : Style) (flags : Flags) :
    (Box.draw (Box.highlightBox down) r style flags =
      if flags.highlight || flags.selected || flags.value || flags.pushed
      then Box.draw down r style flags
      else FlatBox.draw r style flags)
    ∧ Box.boxinfo (Box.highlightBox down) = Box.boxinfo down :=
  ⟨rfl, rfl⟩

theorem inactiveShade_letter (c : Char) (h : Char.toNat 'A' ≤ c.toNat) :
    inactiveShade c = Char.ofNat (Char.toNat 'M' + (c.toNat - Char.toNat 'A') / 3) := by
  unfold inactiveShade
  congr 1
  have h65 : ((c.toNat : Int) - (Char.toNat 'A' : Int))
      = ((c.toNat - Char.toNat 'A' : Nat) : Int) := by
    simp only [show Char.toNat 'A' = 65 from rfl] at h ⊢
    omega
  rw [h65]
  have htd : Int.tdiv ((c.toNat - Char.toNat 'A' : Nat) : Int) 3
      = (((c.toNat - Char.toNat 'A') / 3 : Nat) : Int) := rfl
  rw [htd]
  omega

theorem flToInactiveLoop_letters : ∀ u : List Char,
    (∀ c ∈ u, Char.toNat 'A' ≤ c.toNat) →
    flToInactiveLoop u
      = u.map (fun c => Char.ofNat (Char.toNat 'M' + (c.toNat - Char.toNat 'A') / 3))
  | [], _ => rfl
  | c :: rest, h => by
    simp only [flToInactiveLoop, List.map_cons]
    rw [inactiveShade_letter c (h c (by simp)),
      flToInactiveLoop_letters rest (fun d hd => h d (by simp [hd]))]

/-- C6: when the INACTIVE flag is set and the style option to draw boxes
inactive is on, the pattern `FrameBox::_draw` actually interprets is the
selected pattern transformed character by character through the formula
M + (c − A)/3 with truncating division (stated here for shade letters, where
the ℕ division below coincides with the signed C arithmetic), a leading 2
mode character being copied through unchanged; in particular every character
of WWHHPPAA maps by exactly that formula, giving TTOORRMM. -/
theorem frameBox_inactive_remap (data down : List Char) (r : Rect) (style : Style)
    (flags : Flags) (hin : flags.inactive = true) (hd : style.draw_boxes_inactive = true)
    (hletters : ∀ c ∈ patternBody (if flags.value then down else data),
      Char.toNat 'A' ≤ c.toNat) :
    (FrameBox.draw data down r style flags =
      if r.isEmpty then []
      else
        FrameBox.drawPattern
          (let s := if flags.value then down else data
           if s.head? = some '2' then
             '2' :: s.tail.map (fun c => Char.ofNat (Char.toNat 'M' + (c.toNat - Char.toNat 'A') / 3))
           else s.map (fun c => Char.ofNat (Char.toNat 'M' + (c.toNat - Char.toNat 'A') / 3)))
          r style flags)
    ∧ fl_to_inactive "WWHHPPAA".data = "TTOORRMM".data := by
  constructor
  · simp only [FrameBox.draw, selectPattern, hin, hd, Bool.and_self, if_true]
    by_cases hemp : Rect.isEmpty r = true
    · rw [if_pos hemp, if_pos hemp]
    · rw [if_neg hemp, if_neg hemp]
      congr 1
      unfold fl_to_inactive
      by_cases h2 : (if flags.value then down else data).head? = some '2'
      · rw [if_pos h2, if_pos h2]
        rw [flToInactiveLoop_letters _ (by simpa [patternBody, h2] using hletters)]
      · rw [if_neg h2, if_neg h2]
        rw [flToInactiveLoop_letters _ (by simpa [patternBody, h2] using hletters)]
  · decide

/-- Witness for C6: the up box drawn inactive on an 8 by 8 rectangle. -/
theorem frameBox_inactive_remap_witness :
    (FrameBox.draw "AAWWHHTT".data "WWHHPPAA".data ⟨0, 0, 8, 8⟩ testStyle inactiveFlags =
      if (⟨0, 0, 8, 8⟩ : Rect).isEmpty then []
      else
        FrameBox.drawPattern
          (let s := if inactiveFlags.value then "WWHHPPAA".data else "AAWWHHTT".data
           if s.head? = some '2' then
             '2' :: s.tail.map (fun c => Char.ofNat (Char.toNat 'M' + (c.toNat - Char.toNat 'A') / 3))
           else s.map (fun c => Char.ofNat (Char.toNat 'M' + (c.toNat - Char.toNat 'A') / 3)))
          ⟨0, 0, 8, 8⟩ testStyle inactiveFlags)
    ∧ fl_to_inactive "WWHHPPAA".data = "TTOORRMM".data :=
  frameBox_inactive_remap _ _ _ _ _ rfl rfl (by decide)

/-- C7: for every constructed pattern the `FrameBox` box info satisfies
dw = dh = len/2 and dx = dy = (len/2)/2 with truncating integer division;
the descriptor is built once in the constructor and the modelled box carries
no other mutable state. -/
theorem frameBox_boxinfo_insets (P : List Char) (d : Option (List Char)) :
    (Box.frameBox P d).boxinfo.dw = ((P.length / 2 : Nat) : Int)
    ∧ (Box.frameBox P d).boxinfo.dh = ((P.length / 2 : Nat) : Int)
    ∧ (Box.frameBox P d).boxinfo.dx = ((P.length / 2 / 2 : Nat) : Int)
    ∧ (Box.frameBox P d).boxinfo.dy = ((P.length / 2 / 2 : Nat) : Int) :=
  ⟨rfl, rfl, rfl, rfl⟩

theorem SBG.setTf_rect (st : SBG) (pos : Position) (v : Option LabelBox) :
    (st.setTf pos v).rect = st.rect := by
  cases pos <;> rfl

theorem SBG.boxK_setTf (st : SBG) (pos : Position) (v : Option LabelBox) :
    (st.setTf pos v).boxK = st.boxK := by
  cases pos <;> rfl

theorem SBG.bAt_setTf (st : SBG) (pos q : Position) (v : Option LabelBox) :
    (st.setTf pos v).bAt q = st.bAt q := by
  cases pos <;> cases q <;> rfl

theorem SBG.tf_setTf_same (st : SBG) (pos : Position) (v : Option LabelBox) :
    (st.setTf pos v).tf pos = v := by
  cases pos <;> rfl

theorem SBG.setTf_setTf (st : SBG) (pos : Position) (v v' : Option LabelBox) :
    (st.setTf pos v).setTf pos v' = st.setTf pos v' := by
  cases pos <;> rfl

theorem SBG.setTf_none_eq (st : SBG) (pos : Position) (h : st.tf pos = none) :
    st.setTf pos none = st := by
  cases pos <;> (cases st; simp [SBG.tf] at h; simp [SBG.setTf, h])

theorem updateBox_rect (measure : String → Int × Int) (st : SBG) (pos : Position) :
    (updateBox measure st pos).rect = st.rect := by
  unfold updateBox
  split <;> simp [SBG.setTf_rect]

/-- C10: without a parent widget, `resize_from_parent` returns immediately:
the group rectangle, all three label slots and the sibling rectangles are
completely unchanged. -/
theorem statusbar_resize_no_parent (measure : String → Int × Int) (others : List Rect)
    (st : SBG) :
    resizeFromParent measure none others st = (st, others) := rfl

/-- C1: with a parent, after `resize_from_parent` the group x equals the
content-left inset of the parent box, its width equals the parent content
width, its bottom edge y + h equals the parent content bottom edge, and its
own height is unchanged. -/
theorem statusbar_resize_anchor (measure : String → Int × Int) (p : ParentInfo)
    (others : List Rect) (st : SBG) :
    ((resizeFromParent measure (some p) others st).1.rect.x = boxDx p.box)
    ∧ ((resizeFromParent measure (some p) others st).1.rect.w = p.w - boxDw p.box)
    ∧ ((resizeFromParent measure (some p) others st).1.rect.y
        + (resizeFromParent measure (some p) others st).1.rect.h
        = p.h - boxDh p.box)
    ∧ ((resizeFromParent measure (some p) others st).1.rect.h = st.rect.h) := by
  refine ⟨?_, ?_, ?_, ?_⟩ <;> simp [resizeFromParent, updateBox_rect]

/-- C3: during `resize_from_parent`, every other child of the parent whose
bottom edge exceeds the new top edge of the group by overlap > 0 has its
height reduced by overlap and floored at 0 while its x, y and width stay
unchanged, and a child with overlap ≤ 0 is untouched; concretely, with
parent content rectangle (0,0,300,200) and bar height 24 the bar becomes
(0,176,300,24), a sibling at y=150,h=40 shrinks to h=26 and a sibling at
y=100,h=50 is unchanged. -/
theorem statusbar_resize_shrink (measure : String → Int × Int) (p : ParentInfo)
    (others : List Rect) (st : SBG) :
    ((resizeFromParent measure (some p) others st).2 =
      others.map fun c =>
        let overlap := c.bottom - (p.h - boxDh p.box - st.rect.h)
        if 0 < overlap then ⟨c.x, c.y, c.w, max (c.h - overlap) 0⟩ else c)
    ∧ (resizeFromParent zeroMeasure (some ⟨300, 200, FLAT_BOX⟩)
        [⟨10, 150, 80, 40⟩, ⟨20, 100, 60, 50⟩] exampleBar
        = ({ exampleBar with rect := ⟨0, 176, 300, 24⟩ },
           [⟨10, 150, 80, 26⟩, ⟨20, 100, 60, 50⟩])) := by
  constructor
  · simp only [resizeFromParent]
    congr 1
    funext c
    simp only [gt_iff_lt]
    split_ifs <;> simp [Rect.mk.injEq] <;> omega
  · decide

/-- C8: setting non-empty text at an empty slot and then clearing the same
slot with empty (or null) text leaves no box allocated there and restores
exactly the state from before the first call; clearing an already empty
slot is a no-op. -/
theorem statusbar_set_roundtrip (measure : String → Int × Int) (st : SBG) (t : String)
    (pos : Position) (ht : t ≠ "") (h0 : st.tf pos = none) :
    (SBG.set measure (SBG.set measure st t pos) "" pos = st)
    ∧ SBG.set measure st "" pos = st := by
  have hclear : SBG.set measure st "" pos = st := by
    unfold SBG.set
    rw [if_pos rfl, h0]
  refine ⟨?_, hclear⟩
  obtain ⟨lb2, hlb2⟩ : ∃ lb', SBG.set measure st t pos = st.setTf pos (some lb') := by
    simp only [SBG.set, if_neg ht, h0, SBG.tf_setTf_same, SBG.setTf_setTf]
    simp only [updateBox, SBG.tf_setTf_same, SBG.setTf_setTf]
    exact ⟨_, rfl⟩
  rw [hlb2]
  unfold SBG.set
  rw [if_pos rfl, SBG.tf_setTf_same, SBG.setTf_setTf]
  exact SBG.setTf_none_eq st pos h0

/-- Witness for C8: a round trip through the right slot of a fresh status
bar. -/
theorem statusbar_set_roundtrip_witness :
    (SBG.set testMeasure (SBG.set testMeasure exampleBar "Hello" .sbarRight) "" .sbarRight
      = exampleBar)
    ∧ SBG.set testMeasure exampleBar "" .sbarRight = exampleBar :=
  statusbar_set_roundtrip testMeasure exampleBar "Hello" .sbarRight (by decide) rfl

/-- C9: the formatted setter on the center slot with format string %d items
and argument 5 stores the literal text 5 items in the center slot box, and
`update_box` places that slot at x = (container right edge − slot width)/2,
computed against the full right edge r() with no box-inset correction
(unlike the LEFT and RIGHT positions, which use the box insets), the slot
width being the measured label width plus the (box_dw+1)*2 padding. -/
theorem statusbar_center_format (measure : String → Int × Int) (st : SBG) :
    ∃ lb, (SBG.setFmt measure st .sbarCenter "%d items" 5).tf .sbarCenter = some lb
      ∧ lb.label = "5 items"
      ∧ lb.rect.w = (measure "5 items").1 + (boxDw (st.bAt .sbarCenter) + 1) * 2
      ∧ lb.rect.x = Int.tdiv (st.rect.right - lb.rect.w) 2 := by
  have hs : sprintfD "%d items" 5 = "5 items" := by decide
  have ht : ("5 items" : String) ≠ "" := by decide
  unfold SBG.setFmt
  rw [hs]
  cases h0 : st.tf Position.sbarCenter with
  | none =>
    simp only [SBG.set, if_neg ht, h0, SBG.tf_setTf_same, SBG.setTf_setTf]
    simp only [updateBox, SBG.tf_setTf_same, SBG.setTf_setTf, SBG.bAt_setTf,
      SBG.setTf_rect, SBG.boxK_setTf]
    exact ⟨_, SBG.tf_setTf_same st Position.sbarCenter _, rfl, rfl, rfl⟩
  | some lb0 =>
    simp only [SBG.set, if_neg ht, h0, SBG.tf_setTf_same, SBG.setTf_setTf]
    simp only [updateBox, SBG.tf_setTf_same, SBG.setTf_setTf, SBG.bAt_setTf,
      SBG.setTf_rect, SBG.boxK_setTf]
    exact ⟨_, SBG.tf_setTf_same st Position.sbarCenter _, rfl, rfl, rfl⟩
